import Mathlib

/-!
# Verification of the Task CRUD service

A shallow embedding of the Task resource of this repository: the `Task`
entity (src/src/task/entities/task.entity.ts), the `TaskService`
(same file, second part: a pass-through to a TypeORM `Repository<Task>`)
and the `TaskController` (src/unnamed/part_001: five REST endpoints, with
`ValidationPipe({ whitelist: true, forbidNonWhitelisted: true })` on the
create and update routes).

The persistence layer is external: the TypeORM `Repository` operations
(`find`, `findOne`, `save`, `update`, `delete`) are embedded from their
public documented contract, acting on the single `task` table, which we
model as the list of its rows.
-/

namespace CrudApi

/-- A persisted Task row (entity `Task`,
src/src/task/entities/task.entity.ts): `id` is the generated primary key
(`@PrimaryGeneratedColumn('uuid')`), `title` is a nullable column
(`@Column({ nullable: true })`), `description` a required column. -/
structure Task where
  id : String
  title : Option String
  description : String
deriving Repr, DecidableEq

/-- An entity instance handed to `Repository.save`: the entity class
declares `id?: string`, so the id may be absent on input (it is generated
by the persistence layer when absent). -/
structure TaskInput where
  id : Option String
  title : Option String
  description : String
deriving Repr, DecidableEq

/-- A partial entity handed to `Repository.update`: per TypeORM's
documented contract only the properties present on the object are SET;
absent properties leave the column untouched. The object built from the
request body can carry only `title` and `description`. -/
structure UpdateInput where
  title : Option String
  description : Option String
deriving Repr, DecidableEq

/-- The `task` table: the list of rows currently stored. -/
abbrev Store := List Task

namespace Repository

/-- TypeORM `repository.find()` per its documented contract: returns every
row of the table. -/
def find (s : Store) : List Task := s

/-- TypeORM `repository.findOne({ where: { id } })` per its documented
contract: the first row whose primary key matches, or null. -/
def findOne (s : Store) (id : String) : Option Task :=
  s.find? (fun t => t.id == id)

/-- TypeORM `repository.save(task)` per its documented contract: an entity
carrying the primary key of an existing row overwrites that row; otherwise
the entity is inserted, with the id generated by the database (`genId`)
when the entity carries none. Returns the saved entity. -/
def save (s : Store) (input : TaskInput) (genId : String) : Task × Store :=
  match input.id with
  | some i =>
      let r : Task := { id := i, title := input.title, description := input.description }
      match s.find? (fun t => t.id == i) with
      | some _ => (r, s.map (fun t => if t.id == i then r else t))
      | none => (r, s ++ [r])
  | none =>
      let r : Task := { id := genId, title := input.title, description := input.description }
      (r, s ++ [r])

/-- One row under the UPDATE ... SET of the properties present on a
partial entity: a present `title` overwrites the nullable title column, a
present `description` overwrites the description column; an absent
property leaves the column untouched. -/
def applySet (u : UpdateInput) (t : Task) : Task :=
  { t with
    title := match u.title with | some v => some v | none => t.title
    description := u.description.getD t.description }

/-- TypeORM `repository.update(id, partial)` per its documented contract:
an UPDATE ... SET of the properties present on the partial entity, on every
row whose primary key matches the criteria; no row is inserted and no
result is read back. -/
def update (s : Store) (id : String) (u : UpdateInput) : Store :=
  s.map (fun t => if t.id == id then applySet u t else t)

/-- TypeORM `repository.delete(id)` per its documented contract: removes
the rows whose primary key matches; affects zero rows when none match. -/
def delete (s : Store) (id : String) : Store :=
  s.filter (fun t => !(t.id == id))

end Repository

namespace TaskService

/-- `TaskService.findAll`: `return await this.taskRepository.find()`. -/
def findAll (s : Store) : List Task :=
  Repository.find s

/-- `TaskService.findOne`:
`return await this.taskRepository.findOne({ where: { id } })`. -/
def findOne (s : Store) (id : String) : Option Task :=
  Repository.findOne s id

/-- `TaskService.create`: `return await this.taskRepository.save(task)`.
`genId` is the uuid the persistence layer generates if it inserts. -/
def create (s : Store) (task : TaskInput) (genId : String) : Task × Store :=
  Repository.save s task genId

/-- `TaskService.update`: `await this.taskRepository.update(id, task)`
followed by
`return await this.taskRepository.findOne({ where: { id } })`. -/
def update (s : Store) (id : String) (task : UpdateInput) : Option Task × Store :=
  let s' := Repository.update s id task
  (Repository.findOne s' id, s')

/-- `TaskService.remove`: `await this.taskRepository.delete(id)`, returning
void. -/
def remove (s : Store) (id : String) : Unit × Store :=
  ((), Repository.delete s id)

end TaskService

/-- An HTTP request body, as the JSON object's fields: a list of
(property name, value) pairs. -/
abbrev Body := List (String × String)

/-- The value of field `k` of a body, if present. -/
def lookupField (b : Body) (k : String) : Option String :=
  (b.find? (fun kv => kv.1 == k)).map (fun kv => kv.2)

namespace CreateTaskDto

/-- Modelled from the spec: the file `src/task/dto/create-task.dto.ts`
defining `CreateTaskDto` is not under src/; the spec gives its shape as
the create/update body `title?, description` and the Task fields
`{title, description}`. These are the properties the DTO declares, hence
the whitelist the validation pipe enforces. -/
def fields : List String := ["title", "description"]

end CreateTaskDto

/-- NestJS `ValidationPipe({ whitelist: true, forbidNonWhitelisted: true })`
per its documented contract: a body carrying a property that the DTO does
not declare is rejected with a Bad Request error and the handler is never
invoked; otherwise the body passes through. Per the spec, validation is
"limited to rejecting unexpected fields". -/
def validationPipe (body : Body) : Except String Body :=
  if body.all (fun kv => CreateTaskDto.fields.contains kv.1) then .ok body
  else .error "property should not exist"

/-- The `CreateTaskDto` built from a validated body, as the entity handed
to `TaskService.create`: no id, optional title, the description field. -/
def dtoToInput (b : Body) : TaskInput :=
  { id := none
    title := lookupField b "title"
    description := (lookupField b "description").getD "" }

/-- The `CreateTaskDto` built from a validated body, as the partial entity
handed to `TaskService.update`: only the properties present on the body. -/
def dtoToUpdate (b : Body) : UpdateInput :=
  { title := lookupField b "title"
    description := lookupField b "description" }

namespace TaskController

/-- `GET /task`: `return this.taskService.findAll()`. -/
def findAll (s : Store) : List Task :=
  TaskService.findAll s

/-- `GET /task/:id`: `return this.taskService.findOne(id)`. -/
def findOne (s : Store) (id : String) : Option Task :=
  TaskService.findOne s id

/-- `POST /task`: the validation pipe runs on the body; on success
`return this.taskService.create(createTaskDto)`. -/
def create (s : Store) (body : Body) (genId : String) : Except String Task × Store :=
  match validationPipe body with
  | .error e => (.error e, s)
  | .ok b =>
      let r := TaskService.create s (dtoToInput b) genId
      (.ok r.1, r.2)

/-- `PUT /task/:id`: the validation pipe runs on the body; on success
`return this.taskService.update(id, createTaskDto)`. -/
def update (s : Store) (id : String) (body : Body) : Except String (Option Task) × Store :=
  match validationPipe body with
  | .error e => (.error e, s)
  | .ok b =>
      let r := TaskService.update s id (dtoToUpdate b)
      (.ok r.1, r.2)

/-- `DELETE /task/:id`: `return this.taskService.remove(id)`. -/
def remove (s : Store) (id : String) : Unit × Store :=
  TaskService.remove s id

end TaskController

/-! ## Helper lemmas on row lookup -/

/-- A lookup by id finds nothing when no row carries the id. -/
theorem find?_id_eq_none (s : Store) (id : String) (h : ∀ t ∈ s, t.id ≠ id) :
    s.find? (fun t => t.id == id) = none :=
  List.find?_eq_none.2 (fun t ht => by simpa using h t ht)

/-- A lookup by a fresh id on a store with one row appended finds that
row. -/
theorem find?_id_append_fresh (s : Store) (r : Task) (h : ∀ t ∈ s, t.id ≠ r.id) :
    (s ++ [r]).find? (fun t => t.id == r.id) = some r := by
  induction s with
  | nil => simp
  | cons t ts ih =>
      have hne : (t.id == r.id) = false := by
        simpa using h t (List.mem_cons_self t ts)
      simp only [List.cons_append, List.find?_cons, hne]
      exact ih (fun x hx => h x (List.mem_cons_of_mem t hx))

/-- `find?` commutes with a map that does not change which rows satisfy
the predicate. -/
theorem find?_map_pres (p : Task → Bool) (f : Task → Task)
    (hf : ∀ t, p (f t) = p t) (l : List Task) :
    (l.map f).find? p = (l.find? p).map f := by
  induction l with
  | nil => rfl
  | cons t ts ih =>
      by_cases hp : p t
      · simp [List.find?_cons, hf, hp]
      · simp only [List.map_cons, List.find?_cons, hf t, Bool.not_eq_true] at *
        simp [hp, ih]

/-- A map that fixes every element of the list is the identity there. -/
theorem map_eq_self_of_fixed (f : Task → Task) (l : List Task)
    (h : ∀ t ∈ l, f t = t) : l.map f = l := by
  induction l with
  | nil => rfl
  | cons t ts ih =>
      simp only [List.map_cons]
      rw [h t (List.mem_cons_self t ts), ih (fun x hx => h x (List.mem_cons_of_mem t hx))]

/-! ## Claims

Each claim of the specification, settled against the embedding above. -/

/-- C1: Every method of the Task service performs exactly one repository
call and returns its result unchanged: findAll calls find, findOne calls
find-by-id, create calls save, update performs update-then-refetch, remove
calls delete; no method adds business logic, derives fields, or alters the
repository's result before returning it. -/
theorem C1_service_pass_through :
    (∀ s : Store, TaskService.findAll s = Repository.find s) ∧
    (∀ (s : Store) (id : String), TaskService.findOne s id = Repository.findOne s id) ∧
    (∀ (s : Store) (task : TaskInput) (g : String),
      TaskService.create s task g = Repository.save s task g) ∧
    (∀ (s : Store) (id : String) (task : UpdateInput),
      TaskService.update s id task =
        (Repository.findOne (Repository.update s id task) id, Repository.update s id task)) ∧
    (∀ (s : Store) (id : String),
      TaskService.remove s id = ((), Repository.delete s id)) :=
  ⟨fun _ => rfl, fun _ _ => rfl, fun _ _ _ => rfl, fun _ _ _ => rfl, fun _ _ => rfl⟩

/-- C2: For every id that does not identify any stored Task, findOne
(GET /task/:id) returns an absent/empty result rather than raising a
distinguished not-found error; the caller must interpret the empty result
as not found. -/
theorem C2_findOne_absent (s : Store) (id : String) (h : ∀ t ∈ s, t.id ≠ id) :
    TaskController.findOne s id = none ∧
    TaskController.findOne s id = TaskService.findOne s id :=
  ⟨find?_id_eq_none s id h, rfl⟩

theorem C2_findOne_absent_witness :
    TaskController.findOne [{ id := "a", title := none, description := "x" }] "b" = none ∧
    TaskController.findOne [{ id := "a", title := none, description := "x" }] "b" =
      TaskService.findOne [{ id := "a", title := none, description := "x" }] "b" :=
  C2_findOne_absent _ "b" (by decide)

/-- C5: For every stored task id, performing remove (DELETE /task/:id) and
then findOne on that same id returns an empty/not-found result; remove
itself returns no content and gives no confirmation of the task's prior
existence. -/
theorem C5_remove_then_findOne (s : Store) (id : String) :
    TaskController.findOne (TaskController.remove s id).2 id = none ∧
    (TaskController.remove s id).1 = () := by
  refine ⟨find?_id_eq_none _ id (fun t ht => ?_), rfl⟩
  have hm := List.mem_filter.1 ht
  simpa using hm.2

/-- C9: For every id that does not identify any stored task, the update
operation leaves the stored state entirely unchanged and returns an
absent/empty result instead of an error or a created record (update never
creates a task for an unknown id). -/
theorem C9_update_unknown_id (s : Store) (id : String) (u : UpdateInput)
    (h : ∀ t ∈ s, t.id ≠ id) :
    TaskService.update s id u = (none, s) := by
  have hmap : Repository.update s id u = s :=
    map_eq_self_of_fixed _ s (fun t ht => by simp [h t ht])
  show (Repository.findOne (Repository.update s id u) id, Repository.update s id u) = (none, s)
  rw [hmap]
  have hnone : Repository.findOne s id = none := find?_id_eq_none s id h
  rw [hnone]

theorem C9_update_unknown_id_witness :
    TaskService.update [{ id := "a", title := none, description := "x" }] "b"
        { title := none, description := some "y" } =
      (none, [{ id := "a", title := none, description := "x" }]) :=
  C9_update_unknown_id _ "b" _ (by decide)

/-- C3: For every create request whose body has description "buy milk" and
no title, the create operation returns a record whose description equals
"buy milk" and whose id is a freshly generated identifier assigned by the
persistence layer. -/
theorem C3_create_buy_milk (s : Store) (g : String) (h : ∀ t ∈ s, t.id ≠ g) :
    (TaskController.create s [("description", "buy milk")] g).1 =
      Except.ok { id := g, title := none, description := "buy milk" } ∧
    TaskService.findOne (TaskController.create s [("description", "buy milk")] g).2 g =
      some { id := g, title := none, description := "buy milk" } := by
  refine ⟨rfl, ?_⟩
  show TaskService.findOne (s ++ [{ id := g, title := none, description := "buy milk" }]) g =
    some { id := g, title := none, description := "buy milk" }
  exact find?_id_append_fresh s
    { id := g, title := none, description := "buy milk" } (fun t ht => h t ht)

theorem C3_create_buy_milk_witness :
    (TaskController.create [] [("description", "buy milk")] "u1").1 =
      Except.ok { id := "u1", title := none, description := "buy milk" } ∧
    TaskService.findOne (TaskController.create [] [("description", "buy milk")] "u1").2 "u1" =
      some { id := "u1", title := none, description := "buy milk" } :=
  C3_create_buy_milk [] "u1" (by decide)

/-- A lookup by id on a store where the row carrying that id was replaced
by a row `r` carrying the same id finds `r`. -/
theorem find?_map_replace (s : Store) (i : String) (r : Task) (hr : r.id = i)
    (t0 : Task) (hfind : s.find? (fun t => t.id == i) = some t0) :
    (s.map (fun t => if t.id == i then r else t)).find? (fun t => t.id == i) = some r := by
  have hpres : ∀ t : Task, ((if t.id == i then r else t).id == i) = (t.id == i) := by
    intro t
    by_cases hc : t.id = i
    · simp [hc, hr]
    · simp [hc]
  rw [find?_map_pres _ _ hpres s, hfind]
  have ht0 : t0.id = i := by simpa using List.find?_some hfind
  simp [ht0]

/-- C4: Round-trip: for every task record returned by create, immediately
fetching by that record's id (findOne) returns a record equal to the
created one. (`g` is the id the persistence layer generates if it inserts:
generated ids are fresh.) -/
theorem C4_create_findOne_roundtrip (s : Store) (task : TaskInput) (g : String)
    (h : ∀ t ∈ s, t.id ≠ g) :
    TaskService.findOne (TaskService.create s task g).2 (TaskService.create s task g).1.id
      = some (TaskService.create s task g).1 := by
  obtain ⟨iid, ititle, idesc⟩ := task
  cases iid with
  | none =>
      exact find?_id_append_fresh s { id := g, title := ititle, description := idesc }
        (fun t ht => h t ht)
  | some i =>
      show Repository.findOne (Repository.save s ⟨some i, ititle, idesc⟩ g).2
          (Repository.save s ⟨some i, ititle, idesc⟩ g).1.id
        = some (Repository.save s ⟨some i, ititle, idesc⟩ g).1
      simp only [Repository.save]
      cases hfind : s.find? (fun t => t.id == i) with
      | none =>
          exact find?_id_append_fresh s { id := i, title := ititle, description := idesc }
            (fun t ht => by simpa using List.find?_eq_none.1 hfind t ht)
      | some t0 =>
          exact find?_map_replace s i { id := i, title := ititle, description := idesc }
            rfl t0 hfind

theorem C4_create_findOne_roundtrip_witness :
    TaskService.findOne
        (TaskService.create [] { id := none, title := some "T", description := "x" } "u1").2
        (TaskService.create [] { id := none, title := some "T", description := "x" } "u1").1.id
      = some (TaskService.create [] { id := none, title := some "T", description := "x" } "u1").1 :=
  C4_create_findOne_roundtrip [] _ "u1" (by decide)

/-- C6: For every stored task and every update request that changes only
the description, after the update the task's description equals the new
value while every other field of that task (id, title) remains unchanged;
tasks with other ids are untouched. -/
theorem C6_update_only_description (s : Store) (id : String) (d : String) :
    TaskService.findOne (TaskService.update s id { title := none, description := some d }).2 id
      = (TaskService.findOne s id).map
          (fun t => { id := t.id, title := t.title, description := d }) ∧
    ∀ t ∈ s, t.id ≠ id →
      t ∈ (TaskService.update s id { title := none, description := some d }).2 := by
  constructor
  · show (s.map (fun t =>
        if t.id == id then Repository.applySet { title := none, description := some d } t
        else t)).find? (fun t => t.id == id) = _
    have hpres : ∀ t : Task,
        ((if t.id == id then Repository.applySet { title := none, description := some d } t
          else t).id == id) = (t.id == id) := by
      intro t
      by_cases hc : t.id = id <;> simp [Repository.applySet, hc]
    rw [find?_map_pres _ _ hpres s]
    show _ = (s.find? (fun t => t.id == id)).map _
    cases hfind : s.find? (fun t => t.id == id) with
    | none => rfl
    | some t0 =>
        have ht0 : t0.id = id := by simpa using List.find?_some hfind
        simp [Repository.applySet, ht0]
  · intro t ht hne
    refine List.mem_map.2 ⟨t, ht, ?_⟩
    simp [hne]

theorem C6_update_only_description_witness :
    (TaskService.findOne
        (TaskService.update
          [{ id := "b", title := some "T", description := "old" },
           { id := "a", title := none, description := "x" }] "b"
          { title := none, description := some "new" }).2 "b"
      = some { id := "b", title := some "T", description := "new" }) ∧
    ({ id := "a", title := none, description := "x" } : Task) ∈
      (TaskService.update
        [{ id := "b", title := some "T", description := "old" },
         { id := "a", title := none, description := "x" }] "b"
        { title := none, description := some "new" }).2 := by
  have h := C6_update_only_description
    [{ id := "b", title := some "T", description := "old" },
     { id := "a", title := none, description := "x" }] "b" "new"
  exact ⟨h.1.trans (by decide), h.2 _ (by decide) (by decide)⟩

/-- C7: For every create request whose body contains a field not in
{title, description}, the request is rejected (the task is not created)
when strict validation is enabled. -/
theorem C7_create_rejects_unknown_field (s : Store) (body : Body) (g : String)
    (h : ∃ kv ∈ body, kv.1 ∉ CreateTaskDto.fields) :
    (TaskController.create s body g).1 = Except.error "property should not exist" ∧
    (TaskController.create s body g).2 = s := by
  have hall : body.all (fun kv => CreateTaskDto.fields.contains kv.1) = false := by
    obtain ⟨kv, hkv, hnot⟩ := h
    exact List.all_eq_false.2 ⟨kv, hkv, by simpa using hnot⟩
  have hv : validationPipe body = Except.error "property should not exist" := by
    unfold validationPipe
    rw [hall]
    rfl
  constructor <;> simp [TaskController.create, hv]

theorem C7_create_rejects_unknown_field_witness :
    (TaskController.create [] [("description", "x"), ("priority", "high")] "u1").1 =
      Except.error "property should not exist" ∧
    (TaskController.create [] [("description", "x"), ("priority", "high")] "u1").2 = [] :=
  C7_create_rejects_unknown_field [] _ "u1" ⟨("priority", "high"), by decide, by decide⟩

/-- C10: The update endpoint (PUT /task/:id) applies the same strict
whitelist validation as create: for every update request whose body
contains a field not in {title, description}, the request is rejected and
the stored state is unchanged. -/
theorem C10_update_rejects_unknown_field (s : Store) (id : String) (body : Body)
    (h : ∃ kv ∈ body, kv.1 ∉ CreateTaskDto.fields) :
    (TaskController.update s id body).1 = Except.error "property should not exist" ∧
    (TaskController.update s id body).2 = s := by
  have hall : body.all (fun kv => CreateTaskDto.fields.contains kv.1) = false := by
    obtain ⟨kv, hkv, hnot⟩ := h
    exact List.all_eq_false.2 ⟨kv, hkv, by simpa using hnot⟩
  have hv : validationPipe body = Except.error "property should not exist" := by
    unfold validationPipe
    rw [hall]
    rfl
  constructor <;> simp [TaskController.update, hv]

theorem C10_update_rejects_unknown_field_witness :
    (TaskController.update [{ id := "a", title := none, description := "x" }] "a"
        [("description", "y"), ("owner", "me")]).1 =
      Except.error "property should not exist" ∧
    (TaskController.update [{ id := "a", title := none, description := "x" }] "a"
        [("description", "y"), ("owner", "me")]).2 =
      [{ id := "a", title := none, description := "x" }] :=
  C10_update_rejects_unknown_field _ "a" _ ⟨("owner", "me"), by decide, by decide⟩

/-- The ids of the rows are untouched by `Repository.update`. -/
theorem update_preserves_ids (s : Store) (id : String) (u : UpdateInput) :
    (Repository.update s id u).map Task.id = s.map Task.id := by
  show (s.map (fun t => if t.id == id then Repository.applySet u t else t)).map Task.id
    = s.map Task.id
  rw [List.map_map]
  refine List.map_congr_left (fun t ht => ?_)
  by_cases hc : t.id = id <;> simp [Function.comp, Repository.applySet, hc]

/-- C8: For every stored task, its id is assigned by the server on
creation and is immutable thereafter: update keeps the list of stored ids
exactly; create either keeps every stored id and overwrites no id, or
appends the new record's id after the unchanged stored ids; a created
entity without an id gets the generated one. -/
theorem C8_id_immutable :
    (∀ (s : Store) (id : String) (u : UpdateInput),
        ((TaskService.update s id u).2).map Task.id = s.map Task.id) ∧
    (∀ (s : Store) (task : TaskInput) (g : String),
        ((TaskService.create s task g).2).map Task.id = s.map Task.id ∨
        ((TaskService.create s task g).2).map Task.id
          = s.map Task.id ++ [(TaskService.create s task g).1.id]) ∧
    (∀ (s : Store) (task : TaskInput) (g : String),
        task.id = none → (TaskService.create s task g).1.id = g) := by
  refine ⟨fun s id u => update_preserves_ids s id u, ?_, ?_⟩
  · intro s task g
    obtain ⟨iid, ititle, idesc⟩ := task
    cases iid with
    | none =>
        right
        show (s ++ [({ id := g, title := ititle, description := idesc } : Task)]).map Task.id
          = s.map Task.id ++ [g]
        rw [List.map_append]
        rfl
    | some i =>
        show (Repository.save s ⟨some i, ititle, idesc⟩ g).2.map Task.id = s.map Task.id ∨
          (Repository.save s ⟨some i, ititle, idesc⟩ g).2.map Task.id
            = s.map Task.id ++ [(Repository.save s ⟨some i, ititle, idesc⟩ g).1.id]
        simp only [Repository.save]
        cases hfind : s.find? (fun t => t.id == i) with
        | none =>
            right
            show (s ++ [({ id := i, title := ititle, description := idesc } : Task)]).map Task.id
              = s.map Task.id ++ [({ id := i, title := ititle, description := idesc } : Task).id]
            rw [List.map_append]
            rfl
        | some t0 =>
            left
            show (s.map (fun t =>
                if t.id == i then ({ id := i, title := ititle, description := idesc } : Task)
                else t)).map Task.id = s.map Task.id
            rw [List.map_map]
            refine List.map_congr_left (fun t ht => ?_)
            by_cases hc : t.id = i <;> simp [Function.comp, hc]
  · intro s task g htask
    obtain ⟨iid, ititle, idesc⟩ := task
    cases htask
    rfl

theorem C8_id_immutable_witness :
    ((TaskService.update [{ id := "a", title := none, description := "x" }] "a"
        { title := some "T", description := none }).2).map Task.id =
      [({ id := "a", title := none, description := "x" } : Task)].map Task.id ∧
    (TaskService.create [] { id := none, title := none, description := "y" } "u2").1.id = "u2" := by
  have h := C8_id_immutable
  exact ⟨h.1 _ "a" _, h.2.2 [] _ "u2" rfl⟩

end CrudApi
